import Mathlib

/-
Shallow embedding of logic/pulsed/pulse_objects.py (qudi pulse-object core).

Conventions used throughout:
* Python floats carrying durations/increments are modelled as exact rationals.
* Python dicts (insertion ordered) are modelled as association lists; Python
  sets of channel names are modelled as Finset String.
* A method that returns an int status code is modelled as PyResult x State;
  a raised exception is PyResult.raised.  A Python call that produces a value
  is modelled as PyVal.
* List positions are Int, with Python indexing semantics: a nonnegative index
  addresses from the front, a negative index from the back, and list.insert
  clamps out-of-range indices.
-/

set_option maxRecDepth 16384

/-- The kinds of Python runtime errors raised by the modelled code paths. -/
inductive PyErr where
  | typeError
  | indexError
  | keyError
  | valueError
deriving DecidableEq

/-- Outcome of a Python method that normally returns an int status code. -/
inductive PyResult where
  | ret (code : Int)
  | raised (err : PyErr)
deriving DecidableEq

/-- Outcome of a Python call that produces a value of type alpha. -/
inductive PyVal (α : Type) where
  | ok (val : α)
  | raised (err : PyErr)
deriving DecidableEq

/-- Cons onto a successful list-valued outcome, propagating an error. -/
def pvCons {α : Type} (x : α) : PyVal (List α) → PyVal (List α)
  | .ok l => .ok (x :: l)
  | .raised e => .raised e

/-- Python list indexing semantics for reading, writing or deleting l[i]:
nonnegative indices address from the front, negative indices from the back;
`none` is an IndexError. -/
def pyIndex (n : Nat) (i : Int) : Option Nat :=
  if 0 ≤ i then (if i < (n : Int) then some i.toNat else none)
  else (if 0 ≤ i + (n : Int) then some (i + (n : Int)).toNat else none)

/-- Python list.insert index clamping: a negative index counts from the back
and clamps at 0, an index beyond the length clamps to the length. -/
def pyInsertPos (n : Nat) (i : Int) : Nat :=
  if i < 0 then (i + (n : Int)).toNat else min i.toNat n

/-- Insert at a position (Python list.insert after clamping): inserting at a
position at or beyond the length appends at the end. -/
def insertAt {α : Type} : List α → Nat → α → List α
  | l, 0, a => a :: l
  | [], _ + 1, a => [a]
  | x :: l, n + 1, a => x :: insertAt l n a

/-- Delete the element at a (valid) position, Python del l[i]. -/
def removeAt {α : Type} : List α → Nat → List α
  | [], _ => []
  | _ :: l, 0 => l
  | x :: l, n + 1 => x :: removeAt l n

/-- Overwrite the element at a (valid) position, Python l[i] = a. -/
def setAt {α : Type} : List α → Nat → α → List α
  | [], _, _ => []
  | _ :: l, 0, a => a :: l
  | x :: l, n + 1, a => x :: setAt l n a

/-- Read the element at a position, Python l[i] for an already-translated
nonnegative index. -/
def getAt? {α : Type} : List α → Nat → Option α
  | [], _ => none
  | x :: _, 0 => some x
  | _ :: l, n + 1 => getAt? l n

/-- Character-list prefix test used to model Python str.startswith. -/
def charsPfx : List Char → List Char → Bool
  | [], _ => true
  | _ :: _, [] => false
  | a :: as, b :: bs => a == b && charsPfx as bs

/-- Python str.startswith(p) on s. -/
def strHasPfx (p s : String) : Bool := charsPfx p.toList s.toList

/-- Python string slicing s[n:] (by characters). -/
def strDrop (s : String) (n : Nat) : String := String.mk (s.toList.drop n)

/-- Modelled from the spec: the waveform-function catalog
(logic.pulsed.sampling_functions, out of scope) supplies opaque, named,
parameterized waveform-spec values with a stable two-way mapping to a
declarative record; a waveform-spec is therefore modelled as its name
together with its parameter mapping. -/
structure SamplingFunction where
  name : String
  params : List (String × ℚ)
deriving DecidableEq

/-- The declarative record of a waveform-spec value. -/
structure SFDict where
  name : String
  params : List (String × ℚ)
deriving DecidableEq

/-- func.get_dict_representation() for a waveform-spec value. -/
def SamplingFunction.get_dict_representation (f : SamplingFunction) : SFDict :=
  ⟨f.name, f.params⟩

/-- The name-to-constructor lookup getattr(sf, name)(**params) performed
during Element reconstruction; supplied by the external catalog. -/
def Catalog : Type := String → List (String × ℚ) → PyVal SamplingFunction

/-- PulseBlockElement: the stored attributes, including the channel sets
derived at construction time. -/
structure PulseBlockElement where
  init_length_s : ℚ
  increment_s : ℚ
  pulse_function : List (String × SamplingFunction)
  digital_high : List (String × Bool)
  analog_channels : Finset String
  digital_channels : Finset String
  channel_set : Finset String
deriving DecidableEq

/-- PulseBlockElement.__init__: stores the arguments and derives the used
channel sets from the keys of pulse_function and digital_high. -/
def mkElement (init_length_s increment_s : ℚ)
    (pulse_function : List (String × SamplingFunction))
    (digital_high : List (String × Bool)) : PulseBlockElement :=
  let ac := (pulse_function.map Prod.fst).toFinset
  let dc := (digital_high.map Prod.fst).toFinset
  ⟨init_length_s, increment_s, pulse_function, digital_high, ac, dc, ac ∪ dc⟩

/-- One value of the pulse_function mapping inside an Element record: either
the serialized record of a waveform-spec, or (after the in-place mutation done
by element_from_dict) the constructed waveform-spec object itself. -/
inductive PFEntry where
  | raw (record : SFDict)
  | obj (func : SamplingFunction)
deriving DecidableEq

/-- The declarative record of an Element. -/
structure ElementDict where
  init_length_s : ℚ
  increment_s : ℚ
  digital_high : List (String × Bool)
  pulse_function : List (String × PFEntry)
deriving DecidableEq

/-- PulseBlockElement.get_dict_representation. -/
def PulseBlockElement.get_dict_representation (e : PulseBlockElement) : ElementDict :=
  ⟨e.init_length_s, e.increment_s, e.digital_high,
    e.pulse_function.map (fun p => (p.1, PFEntry.raw p.2.get_dict_representation))⟩

/-- The in-place rewrite loop of element_from_dict over the pulse_function
mapping: each serialized entry is overwritten with the constructed
waveform-spec object.  Returns the mutated mapping (mutation stops at the
first failure) together with the constructed channel-to-waveform values.
Subscripting an already-constructed object (a second reconstruction from the
same record) raises a TypeError. -/
def convertPF (catalog : Catalog) :
    List (String × PFEntry) → List (String × PFEntry) × PyVal (List (String × SamplingFunction))
  | [] => ([], .ok [])
  | (c, PFEntry.obj f) :: rest => ((c, PFEntry.obj f) :: rest, .raised .typeError)
  | (c, PFEntry.raw sd) :: rest =>
    match catalog sd.name sd.params with
    | .raised err => ((c, PFEntry.raw sd) :: rest, .raised err)
    | .ok f =>
      let r := convertPF catalog rest
      ((c, PFEntry.obj f) :: r.1, pvCons (c, f) r.2)

/-- PulseBlockElement.element_from_dict: mutates the given record in place
(the first component of the result is the record as the caller sees it
afterwards) and constructs the element from it. -/
def PulseBlockElement.element_from_dict (catalog : Catalog) (d : ElementDict) :
    ElementDict × PyVal PulseBlockElement :=
  let r := convertPF catalog d.pulse_function
  (⟨d.init_length_s, d.increment_s, d.digital_high, r.1⟩,
    match r.2 with
    | .raised err => .raised err
    | .ok fl => .ok (mkElement d.init_length_s d.increment_s fl d.digital_high))

/-- The set comprehension selecting channels whose name starts with "a". -/
def analogFilter (cs : Finset String) : Finset String :=
  cs.filter (fun c => strHasPfx "a" c)

/-- The set comprehension selecting channels whose name starts with "d". -/
def digitalFilter (cs : Finset String) : Finset String :=
  cs.filter (fun c => strHasPfx "d" c)

/-- PulseBlock: the stored attributes. -/
structure PulseBlock where
  name : String
  element_list : List PulseBlockElement
  init_length_s : ℚ
  increment_s : ℚ
  analog_channels : Finset String
  digital_channels : Finset String
  channel_set : Finset String
deriving DecidableEq

/-- The loop of PulseBlock.refresh_parameters: accumulates the totals and the
common channel set (an empty running set adopts the element's set, a later
mismatch raises ValueError). -/
def refreshLoop : List PulseBlockElement → ℚ → ℚ → Finset String →
    PyVal (ℚ × ℚ × Finset String)
  | [], len, inc, cs => .ok (len, inc, cs)
  | e :: rest, len, inc, cs =>
    let len := len + e.init_length_s
    let inc := inc + e.increment_s
    if cs = ∅ then refreshLoop rest len inc e.channel_set
    else if cs = e.channel_set then refreshLoop rest len inc cs
    else .raised .valueError

/-- PulseBlock.__init__ with an explicit element_list (runs
refresh_parameters, which raises ValueError on mixed channel sets). -/
def mkBlock (name : String) (element_list : List PulseBlockElement) : PyVal PulseBlock :=
  match refreshLoop element_list 0 0 ∅ with
  | .raised err => .raised err
  | .ok (len, inc, cs) =>
    .ok ⟨name, element_list, len, inc, analogFilter cs, digitalFilter cs, cs⟩

/-- PulseBlock(name) with the default element_list=None. -/
def mkBlockNone (name : String) : PulseBlock := ⟨name, [], 0, 0, ∅, ∅, ∅⟩

/-- PulseBlock.replace_element. -/
def PulseBlock.replace_element (b : PulseBlock) (position : Int)
    (element : PulseBlockElement) : PyResult × PulseBlock :=
  if (b.element_list.length : Int) ≤ position then (.ret (-1), b)
  else if element.channel_set ≠ b.channel_set then (.raised .valueError, b)
  else
    match pyIndex b.element_list.length position with
    | none => (.raised .indexError, b)
    | some idx =>
      match getAt? b.element_list idx with
      | none => (.raised .indexError, b)
      | some old =>
        (.ret 0,
          ⟨b.name, setAt b.element_list idx element,
            b.init_length_s - old.init_length_s + element.init_length_s,
            b.increment_s - old.increment_s + element.increment_s,
            b.analog_channels, b.digital_channels, b.channel_set⟩)

/-- PulseBlock.delete_element. -/
def PulseBlock.delete_element (b : PulseBlock) (position : Int) :
    PyResult × PulseBlock :=
  if (b.element_list.length : Int) ≤ position then (.ret (-1), b)
  else
    match pyIndex b.element_list.length position with
    | none => (.raised .indexError, b)
    | some idx =>
      match getAt? b.element_list idx with
      | none => (.raised .indexError, b)
      | some old =>
        if removeAt b.element_list idx = [] then
          (.ret 0, ⟨b.name, removeAt b.element_list idx, 0, 0,
            b.analog_channels, b.digital_channels, b.channel_set⟩)
        else
          (.ret 0, ⟨b.name, removeAt b.element_list idx,
            b.init_length_s - old.init_length_s,
            b.increment_s - old.increment_s,
            b.analog_channels, b.digital_channels, b.channel_set⟩)

/-- PulseBlock.insert_element. -/
def PulseBlock.insert_element (b : PulseBlock) (position : Int)
    (element : PulseBlockElement) : PyResult × PulseBlock :=
  if (b.element_list.length : Int) < position then (.ret (-1), b)
  else if b.channel_set = ∅ then
    (.ret 0, ⟨b.name,
      insertAt b.element_list (pyInsertPos b.element_list.length position) element,
      b.init_length_s + element.init_length_s,
      b.increment_s + element.increment_s,
      analogFilter element.channel_set, digitalFilter element.channel_set,
      element.channel_set⟩)
  else if element.channel_set ≠ b.channel_set then (.raised .valueError, b)
  else
    (.ret 0, ⟨b.name,
      insertAt b.element_list (pyInsertPos b.element_list.length position) element,
      b.init_length_s + element.init_length_s,
      b.increment_s + element.increment_s,
      b.analog_channels, b.digital_channels, b.channel_set⟩)

/-- PulseBlock.append_element. -/
def PulseBlock.append_element (b : PulseBlock) (element : PulseBlockElement)
    (at_beginning : Bool) : PyResult × PulseBlock :=
  b.insert_element (if at_beginning then 0 else (b.element_list.length : Int)) element

/-- One entry of the element_list inside a Block record: a serialized Element
record, or (after the in-place mutation done by block_from_dict) the
constructed Element object. -/
inductive ElemEntry where
  | rawE (record : ElementDict)
  | objE (element : PulseBlockElement)
deriving DecidableEq

/-- The declarative record of a Block. -/
structure BlockDict where
  name : String
  element_list : List ElemEntry
deriving DecidableEq

/-- PulseBlock.get_dict_representation. -/
def PulseBlock.get_dict_representation (b : PulseBlock) : BlockDict :=
  ⟨b.name, b.element_list.map (fun e => ElemEntry.rawE e.get_dict_representation)⟩

/-- The in-place rewrite loop of block_from_dict over element_list: each
Element record is overwritten with the constructed Element (an inner Element
record partially mutated by a failed element_from_dict stays in place).
Subscripting an already-constructed Element (second reconstruction) raises a
TypeError. -/
def convertElems (catalog : Catalog) :
    List ElemEntry → List ElemEntry × PyVal (List PulseBlockElement)
  | [] => ([], .ok [])
  | ElemEntry.objE e :: rest => (ElemEntry.objE e :: rest, .raised .typeError)
  | ElemEntry.rawE ed :: rest =>
    let r := PulseBlockElement.element_from_dict catalog ed
    match r.2 with
    | .raised err => (ElemEntry.rawE r.1 :: rest, .raised err)
    | .ok e =>
      let rr := convertElems catalog rest
      (ElemEntry.objE e :: rr.1, pvCons e rr.2)

/-- PulseBlock.block_from_dict: mutates the given record in place (first
component of the result) and constructs the Block via PulseBlock(**). -/
def PulseBlock.block_from_dict (catalog : Catalog) (d : BlockDict) :
    BlockDict × PyVal PulseBlock :=
  let r := convertElems catalog d.element_list
  (⟨d.name, r.1⟩,
    match r.2 with
    | .raised err => .raised err
    | .ok es => mkBlock d.name es)

/-- Opaque metadata dictionaries (sampling_information and
measurement_information), populated by later pipeline stages and only copied
through by this core. -/
abbrev Metadata := List (String × Int)

/-- PulseBlockEnsemble: the stored attributes.  The step entries are the
(block_name, repetitions) tuples produced by insert_block/append_block. -/
structure PulseBlockEnsemble where
  name : String
  rotating_frame : Bool
  block_list : List (String × Int)
  sampling_information : Metadata
  measurement_information : Metadata
deriving DecidableEq

/-- PulseBlockEnsemble.__init__ (block_list=None yields an empty list; the
metadata containers start empty). -/
def mkEnsemble (name : String) (block_list : Option (List (String × Int)))
    (rotating_frame : Bool) : PulseBlockEnsemble :=
  ⟨name, rotating_frame, block_list.getD [], [], []⟩

/-- PulseBlockEnsemble.replace_block.  With reps=None the code executes
self.block_list[position][0] = block_name; the step entries are tuples, so
this item assignment raises a TypeError. -/
def PulseBlockEnsemble.replace_block (e : PulseBlockEnsemble) (position : Int)
    (block_name : String) (reps : Option Int) : PyResult × PulseBlockEnsemble :=
  if (e.block_list.length : Int) ≤ position then (.ret (-1), e)
  else
    match reps with
    | none =>
      match pyIndex e.block_list.length position with
      | none => (.raised .indexError, e)
      | some _ => (.raised .typeError, e)
    | some r =>
      if 0 ≤ r then
        match pyIndex e.block_list.length position with
        | none => (.raised .indexError, e)
        | some idx =>
          (.ret 0, ⟨e.name, e.rotating_frame, setAt e.block_list idx (block_name, r),
            e.sampling_information, e.measurement_information⟩)
      else (.ret (-1), e)

/-- PulseBlockEnsemble.delete_block. -/
def PulseBlockEnsemble.delete_block (e : PulseBlockEnsemble) (position : Int) :
    PyResult × PulseBlockEnsemble :=
  if (e.block_list.length : Int) ≤ position then (.ret (-1), e)
  else
    match pyIndex e.block_list.length position with
    | none => (.raised .indexError, e)
    | some idx =>
      (.ret 0, ⟨e.name, e.rotating_frame, removeAt e.block_list idx,
        e.sampling_information, e.measurement_information⟩)

/-- PulseBlockEnsemble.insert_block. -/
def PulseBlockEnsemble.insert_block (e : PulseBlockEnsemble) (position : Int)
    (block_name : String) (reps : Int) : PyResult × PulseBlockEnsemble :=
  if (e.block_list.length : Int) < position ∨ reps < 0 then (.ret (-1), e)
  else
    (.ret 0, ⟨e.name, e.rotating_frame,
      insertAt e.block_list (pyInsertPos e.block_list.length position) (block_name, reps),
      e.sampling_information, e.measurement_information⟩)

/-- PulseBlockEnsemble.append_block. -/
def PulseBlockEnsemble.append_block (e : PulseBlockEnsemble) (block_name : String)
    (reps : Int) (at_beginning : Bool) : PyResult × PulseBlockEnsemble :=
  e.insert_block (if at_beginning then 0 else (e.block_list.length : Int)) block_name reps

/-- The declarative record of an Ensemble. -/
structure EnsembleDict where
  name : String
  rotating_frame : Bool
  block_list : List (String × Int)
  sampling_information : Metadata
  measurement_information : Metadata
deriving DecidableEq

/-- PulseBlockEnsemble.get_dict_representation. -/
def PulseBlockEnsemble.get_dict_representation (e : PulseBlockEnsemble) : EnsembleDict :=
  ⟨e.name, e.rotating_frame, e.block_list, e.sampling_information,
    e.measurement_information⟩

/-- PulseBlockEnsemble.ensemble_from_dict. -/
def PulseBlockEnsemble.ensemble_from_dict (d : EnsembleDict) : PulseBlockEnsemble :=
  ⟨d.name, d.rotating_frame, d.block_list, d.sampling_information,
    d.measurement_information⟩

/-- A sequence-step parameter dictionary with its repetitions, go_to and
event_jump_to entries. -/
structure SeqParam where
  repetitions : Int
  go_to : Int
  event_jump_to : Int
deriving DecidableEq

/-- PulseSequence: the stored attributes, including the derived is_finite
flag.  The step entries are the (ensemble_name, seq_param) tuples produced by
insert_ensemble/append_ensemble. -/
structure PulseSequence where
  name : String
  rotating_frame : Bool
  ensemble_list : List (String × SeqParam)
  is_finite : Bool
  sampling_information : Metadata
  measurement_information : Metadata
deriving DecidableEq

/-- PulseSequence.refresh_parameters: full rescan of the step list, setting
is_finite to false exactly when some step has negative repetitions. -/
def PulseSequence.refresh_parameters (s : PulseSequence) : PulseSequence :=
  ⟨s.name, s.rotating_frame, s.ensemble_list,
    !(s.ensemble_list.any (fun p => decide (p.2.repetitions < 0))),
    s.sampling_information, s.measurement_information⟩

/-- PulseSequence.__init__: stores the arguments, initializes is_finite=True
and immediately runs refresh_parameters; metadata containers start empty. -/
def mkSequence (name : String) (ensemble_list : List (String × SeqParam))
    (rotating_frame : Bool) : PulseSequence :=
  PulseSequence.refresh_parameters ⟨name, rotating_frame, ensemble_list, true, [], []⟩

/-- PulseSequence.replace_ensemble.  With seq_param=None the code executes
self.ensemble_list[position][0] = ensemble_name; the step entries are tuples,
so this item assignment raises a TypeError.  With a seq_param the step is
replaced and is_finite is updated in O(1) when going infinite, or via a full
rescan when a nonnegative step replaces something in an infinite sequence. -/
def PulseSequence.replace_ensemble (s : PulseSequence) (position : Int)
    (ensemble_name : String) (seq_param : Option SeqParam) : PyResult × PulseSequence :=
  if (s.ensemble_list.length : Int) ≤ position then (.ret (-1), s)
  else
    match seq_param with
    | none =>
      match pyIndex s.ensemble_list.length position with
      | none => (.raised .indexError, s)
      | some _ => (.raised .typeError, s)
    | some p =>
      match pyIndex s.ensemble_list.length position with
      | none => (.raised .indexError, s)
      | some idx =>
        if p.repetitions < 0 ∧ s.is_finite = true then
          (.ret 0, ⟨s.name, s.rotating_frame,
            setAt s.ensemble_list idx (ensemble_name, p), false,
            s.sampling_information, s.measurement_information⟩)
        else if 0 ≤ p.repetitions ∧ s.is_finite = false then
          (.ret 0, PulseSequence.refresh_parameters ⟨s.name, s.rotating_frame,
            setAt s.ensemble_list idx (ensemble_name, p),
            s.is_finite, s.sampling_information, s.measurement_information⟩)
        else
          (.ret 0, ⟨s.name, s.rotating_frame,
            setAt s.ensemble_list idx (ensemble_name, p), s.is_finite,
            s.sampling_information, s.measurement_information⟩)

/-- PulseSequence.delete_ensemble: reads the removed step's repetitions
before deleting and rescans only when they were negative. -/
def PulseSequence.delete_ensemble (s : PulseSequence) (position : Int) :
    PyResult × PulseSequence :=
  if (s.ensemble_list.length : Int) ≤ position then (.ret (-1), s)
  else
    match pyIndex s.ensemble_list.length position with
    | none => (.raised .indexError, s)
    | some idx =>
      match getAt? s.ensemble_list idx with
      | none => (.raised .indexError, s)
      | some step =>
        if step.2.repetitions < 0 then
          (.ret 0, PulseSequence.refresh_parameters ⟨s.name, s.rotating_frame,
            removeAt s.ensemble_list idx, s.is_finite,
            s.sampling_information, s.measurement_information⟩)
        else
          (.ret 0, ⟨s.name, s.rotating_frame,
            removeAt s.ensemble_list idx, s.is_finite,
            s.sampling_information, s.measurement_information⟩)

/-- PulseSequence.insert_ensemble: no validation of the repetitions value;
inserting a step with negative repetitions clears is_finite in O(1). -/
def PulseSequence.insert_ensemble (s : PulseSequence) (position : Int)
    (ensemble_name : String) (seq_param : SeqParam) : PyResult × PulseSequence :=
  if (s.ensemble_list.length : Int) < position then (.ret (-1), s)
  else
    (.ret 0, ⟨s.name, s.rotating_frame,
      insertAt s.ensemble_list (pyInsertPos s.ensemble_list.length position)
        (ensemble_name, seq_param),
      (if seq_param.repetitions < 0 then false else s.is_finite),
      s.sampling_information, s.measurement_information⟩)

/-- PulseSequence.append_ensemble. -/
def PulseSequence.append_ensemble (s : PulseSequence) (ensemble_name : String)
    (seq_param : SeqParam) (at_beginning : Bool) : PyResult × PulseSequence :=
  s.insert_ensemble (if at_beginning then 0 else (s.ensemble_list.length : Int))
    ensemble_name seq_param

/-- The declarative record of a Sequence. -/
structure SequenceDict where
  name : String
  rotating_frame : Bool
  ensemble_list : List (String × SeqParam)
  sampling_information : Metadata
  measurement_information : Metadata
deriving DecidableEq

/-- PulseSequence.get_dict_representation. -/
def PulseSequence.get_dict_representation (s : PulseSequence) : SequenceDict :=
  ⟨s.name, s.rotating_frame, s.ensemble_list, s.sampling_information,
    s.measurement_information⟩

/-- PulseSequence.sequence_from_dict: reconstructs through the constructor
(recomputing is_finite) and then restores the metadata containers. -/
def PulseSequence.sequence_from_dict (d : SequenceDict) : PulseSequence :=
  let s := mkSequence d.name d.ensemble_list d.rotating_frame
  ⟨s.name, s.rotating_frame, s.ensemble_list, s.is_finite,
    d.sampling_information, d.measurement_information⟩

/-- The generation settings read by PredefinedGeneratorBase from the owning
logic module (generation_parameters): the gate channel entry (none models a
missing key or a stored None) and the timing constants used by
_get_ensemble_count_length. -/
structure GenerationParameters where
  gate_channel : Option String
  laser_length : ℚ
  laser_delay : ℚ
deriving DecidableEq

/-- PredefinedGeneratorBase.gate_channel: the stored entry, with the empty
string normalized to None. -/
def PredefinedGeneratorBase.gate_channel (gp : GenerationParameters) : Option String :=
  match gp.gate_channel with
  | none => none
  | some c => if c = "" then none else some c

/-- The dict comprehension building the name-to-block lookup in
_get_ensemble_count_length; a later block with the same name overwrites an
earlier one. -/
def blockLookup (created_blocks : List PulseBlock) (n : String) : Option PulseBlock :=
  created_blocks.reverse.find? (fun b => b.name == n)

/-- The summation loop of _get_ensemble_count_length over the Ensemble's
steps; a step naming an unknown block raises a KeyError. -/
def countLoop (lookup : String → Option PulseBlock) :
    List (String × Int) → ℚ → PyVal ℚ
  | [], acc => .ok acc
  | (bn, reps) :: rest, acc =>
    match lookup bn with
    | none => .raised .keyError
    | some blk =>
      countLoop lookup rest
        (acc + blk.init_length_s * ((reps : ℚ) + 1)
             + blk.increment_s * (((reps : ℚ) ^ 2 + (reps : ℚ)) / 2))

/-- PredefinedGeneratorBase._get_ensemble_count_length. -/
def PredefinedGeneratorBase.get_ensemble_count_length (gp : GenerationParameters)
    (ensemble : PulseBlockEnsemble) (created_blocks : List PulseBlock) : PyVal ℚ :=
  match PredefinedGeneratorBase.gate_channel gp with
  | some _ => .ok (gp.laser_length + gp.laser_delay)
  | none => countLoop (blockLookup created_blocks) ensemble.block_list 0

/-- The method-name marker checked by the registry harvesting pass. -/
def generateMarker : String := "generate_"

/-- One step of PulseObjectGenerator.__populate_method_dict: a callable whose
name starts with "generate_" is registered in the mapping under the name with
the 9-character marker sliced off (method_name[9:]), overwriting any earlier
entry for that key. -/
def registryStep (d : String → Option Nat) (p : String × Nat) : String → Option Nat :=
  if strHasPfx generateMarker p.1 then
    fun k => if k = strDrop p.1 9 then some p.2 else d k
  else d

/-- PulseObjectGenerator.__populate_method_dict: instances are processed in
discovery order, and each instance contributes its enumerated (method name,
method reference) members in order; method references are modelled as opaque
identifiers. -/
def populate_method_dict (instance_list : List (List (String × Nat))) :
    String → Option Nat :=
  instance_list.flatten.foldl registryStep (fun _ => none)

/-- The last entry of the harvested member list that registers under key s:
the value of the operation discovered latest whose name is the marker
followed by s. -/
def lastMatch (s : String) : List (String × Nat) → Option Nat
  | [] => none
  | p :: rest =>
    match lastMatch s rest with
    | some v => some v
    | none =>
      if strHasPfx generateMarker p.1 = true ∧ strDrop p.1 9 = s then some p.2
      else none

/-- The identity of the PredefinedGeneratorBase class, as it appears in a
candidate class's list of direct bases. -/
def predefinedGeneratorBaseName : String := "PredefinedGeneratorBase"

/-- A candidate object inspected by the registry: a class with its list of
direct base classes (obj.__bases__), or any non-class object. -/
inductive PyObject where
  | pyClass (bases : List String)
  | nonClass
deriving DecidableEq

/-- PulseObjectGenerator.is_generator_class: a class object whose direct
bases contain PredefinedGeneratorBase and number exactly one. -/
def PulseObjectGenerator.is_generator_class (obj : PyObject) : Bool :=
  match obj with
  | PyObject.pyClass bases =>
    decide (predefinedGeneratorBaseName ∈ bases) && bases.length == 1
  | PyObject.nonClass => false

/-- A position-addressed edit on a Block. -/
inductive BlockOp where
  | ins (position : Int) (element : PulseBlockElement)
  | repl (position : Int) (element : PulseBlockElement)
  | del (position : Int)
  | app (element : PulseBlockElement) (at_beginning : Bool)

/-- Run one Block edit, keeping the post-call state whether the call
succeeded, failed with -1, or raised. -/
def applyBlockOp (b : PulseBlock) : BlockOp → PulseBlock
  | BlockOp.ins p e => (b.insert_element p e).2
  | BlockOp.repl p e => (b.replace_element p e).2
  | BlockOp.del p => (b.delete_element p).2
  | BlockOp.app e ab => (b.append_element e ab).2

/-- Run a list of Block edits in order. -/
def applyBlockOps (b : PulseBlock) (ops : List BlockOp) : PulseBlock :=
  ops.foldl applyBlockOp b

/-- A position-addressed edit on a Sequence (replace carries the optional
step-parameter record, as in the Python signature). -/
inductive SeqOp where
  | ins (position : Int) (ensemble_name : String) (seq_param : SeqParam)
  | repl (position : Int) (ensemble_name : String) (seq_param : Option SeqParam)
  | del (position : Int)
  | app (ensemble_name : String) (seq_param : SeqParam) (at_beginning : Bool)

/-- Run one Sequence edit, keeping the post-call state whether the call
succeeded, failed with -1, or raised. -/
def applySeqOp (s : PulseSequence) : SeqOp → PulseSequence
  | SeqOp.ins p n q => (s.insert_ensemble p n q).2
  | SeqOp.repl p n q => (s.replace_ensemble p n q).2
  | SeqOp.del p => (s.delete_ensemble p).2
  | SeqOp.app n q ab => (s.append_ensemble n q ab).2

/-- Run a list of Sequence edits in order. -/
def applySeqOps (s : PulseSequence) (ops : List SeqOp) : PulseSequence :=
  ops.foldl applySeqOp s

/-- The Block bookkeeping invariant: the stored totals are the sums of the
element durations and increments. -/
def blockTotalsOK (b : PulseBlock) : Prop :=
  b.init_length_s = (b.element_list.map PulseBlockElement.init_length_s).sum ∧
  b.increment_s = (b.element_list.map PulseBlockElement.increment_s).sum

/-- The Sequence finiteness invariant as the code maintains it: is_finite
holds exactly when every step has nonnegative repetitions. -/
def seqFiniteOK (s : PulseSequence) : Prop :=
  s.is_finite = true ↔ ∀ p ∈ s.ensemble_list, 0 ≤ p.2.repetitions

/-- An Element whose cached channel sets are the ones its constructor would
derive (true of every element built through PulseBlockElement.__init__). -/
abbrev wfElement (e : PulseBlockElement) : Prop :=
  mkElement e.init_length_s e.increment_s e.pulse_function e.digital_high = e

/-- A Block whose stored derived fields are the ones its constructor would
compute from its element list. -/
abbrev wfBlock (b : PulseBlock) : Prop :=
  mkBlock b.name b.element_list = .ok b

/-- A Sequence whose stored is_finite flag agrees with a full rescan. -/
abbrev wfSequence (s : PulseSequence) : Prop :=
  s.refresh_parameters = s

/-- The claim C6 hypothesis on the external catalog: it maps the serialized
record of every waveform-spec used in the element back to an equal value. -/
abbrev catalogInverts (catalog : Catalog) (e : PulseBlockElement) : Prop :=
  ∀ p ∈ e.pulse_function, catalog p.2.name p.2.params = .ok p.2

theorem mem_insertAt {α : Type} (l : List α) (n : Nat) (a b : α) :
    b ∈ insertAt l n a ↔ b = a ∨ b ∈ l := by
  induction l generalizing n with
  | nil => cases n <;> simp [insertAt]
  | cons x t ih =>
    cases n with
    | zero => simp [insertAt]
    | succ m =>
      simp only [insertAt, List.mem_cons, ih]
      tauto

theorem getAt?_mem {α : Type} {l : List α} {n : Nat} {x : α}
    (h : getAt? l n = some x) : x ∈ l := by
  induction l generalizing n with
  | nil => simp [getAt?] at h
  | cons y t ih =>
    cases n with
    | zero => simp [getAt?] at h; simp [h]
    | succ m => exact List.mem_cons_of_mem y (ih h)

theorem mem_removeAt {α : Type} {l : List α} {n : Nat} {b : α}
    (h : b ∈ removeAt l n) : b ∈ l := by
  induction l generalizing n with
  | nil => simp [removeAt] at h
  | cons y t ih =>
    cases n with
    | zero => exact List.mem_cons_of_mem y h
    | succ m =>
      rcases List.mem_cons.mp h with h1 | h1
      · simp [h1]
      · exact List.mem_cons_of_mem y (ih h1)

theorem mem_setAt {α : Type} {l : List α} {n : Nat} {a b : α}
    (h : b ∈ setAt l n a) : b ∈ l ∨ b = a := by
  induction l generalizing n with
  | nil => simp [setAt] at h
  | cons y t ih =>
    cases n with
    | zero =>
      rcases List.mem_cons.mp h with h1 | h1
      · exact Or.inr h1
      · exact Or.inl (List.mem_cons_of_mem y h1)
    | succ m =>
      rcases List.mem_cons.mp h with h1 | h1
      · exact Or.inl (by simp [h1])
      · rcases ih h1 with h2 | h2
        · exact Or.inl (List.mem_cons_of_mem y h2)
        · exact Or.inr h2

theorem mem_setAt_self {α : Type} {l : List α} {n : Nat}
    (h : n < l.length) (a : α) : a ∈ setAt l n a := by
  induction l generalizing n with
  | nil => simp at h
  | cons y t ih =>
    cases n with
    | zero => simp [setAt]
    | succ m =>
      exact List.mem_cons_of_mem y (ih (Nat.lt_of_succ_lt_succ h))

theorem removeAt_exists {α : Type} (P : α → Prop) {l : List α} {n : Nat} {x : α}
    (hg : getAt? l n = some x) (hx : ¬ P x) (h : ∃ a ∈ l, P a) :
    ∃ a ∈ removeAt l n, P a := by
  induction l generalizing n with
  | nil => simp [getAt?] at hg
  | cons y t ih =>
    cases n with
    | zero =>
      simp [getAt?] at hg
      rcases h with ⟨a, ha, hPa⟩
      rcases List.mem_cons.mp ha with h1 | h1
      · exact absurd hPa (by rw [h1, hg]; exact hx)
      · exact ⟨a, h1, hPa⟩
    | succ m =>
      rcases h with ⟨a, ha, hPa⟩
      rcases List.mem_cons.mp ha with h1 | h1
      · exact ⟨a, by simp [removeAt, h1], hPa⟩
      · rcases ih hg ⟨a, h1, hPa⟩ with ⟨b, hb, hPb⟩
        exact ⟨b, List.mem_cons_of_mem y hb, hPb⟩

theorem getAt?_lt {α : Type} {l : List α} {n : Nat} {x : α}
    (h : getAt? l n = some x) : n < l.length := by
  induction l generalizing n with
  | nil => simp [getAt?] at h
  | cons y t ih =>
    cases n with
    | zero => simp
    | succ m => exact Nat.succ_lt_succ (ih h)

theorem sum_insertAt {α : Type} (f : α → ℚ) (l : List α) (n : Nat) (a : α) :
    ((insertAt l n a).map f).sum = (l.map f).sum + f a := by
  induction l generalizing n with
  | nil => cases n <;> simp [insertAt]
  | cons x t ih =>
    cases n with
    | zero => simp [insertAt]; ring
    | succ m => simp [insertAt, ih]; ring

theorem sum_setAt {α : Type} (f : α → ℚ) {l : List α} {n : Nat} {x : α}
    (hg : getAt? l n = some x) (a : α) :
    ((setAt l n a).map f).sum = (l.map f).sum - f x + f a := by
  induction l generalizing n with
  | nil => simp [getAt?] at hg
  | cons y t ih =>
    cases n with
    | zero =>
      simp [getAt?] at hg
      simp [setAt, hg]; ring
    | succ m =>
      simp [setAt, ih hg]; ring

theorem sum_removeAt {α : Type} (f : α → ℚ) {l : List α} {n : Nat} {x : α}
    (hg : getAt? l n = some x) :
    ((removeAt l n).map f).sum = (l.map f).sum - f x := by
  induction l generalizing n with
  | nil => simp [getAt?] at hg
  | cons y t ih =>
    cases n with
    | zero =>
      simp [getAt?] at hg
      simp [removeAt, hg]
    | succ m =>
      simp [removeAt, ih hg]; ring

theorem pyIndex_lt {n : Nat} {i : Int} {k : Nat} (h : pyIndex n i = some k) : k < n := by
  unfold pyIndex at h
  by_cases h0 : 0 ≤ i
  · rw [if_pos h0] at h
    by_cases h1 : i < (n : Int)
    · rw [if_pos h1] at h
      injection h with h2
      omega
    · rw [if_neg h1] at h; cases h
  · rw [if_neg h0] at h
    by_cases h1 : 0 ≤ i + (n : Int)
    · rw [if_pos h1] at h
      injection h with h2
      omega
    · rw [if_neg h1] at h; cases h

theorem refresh_finiteOK (s : PulseSequence) : seqFiniteOK s.refresh_parameters := by
  unfold seqFiniteOK PulseSequence.refresh_parameters
  simp [List.any_eq_true, not_lt]

theorem insert_ensemble_finiteOK (s : PulseSequence) (pos : Int) (n : String)
    (p : SeqParam) (h : seqFiniteOK s) : seqFiniteOK (s.insert_ensemble pos n p).2 := by
  unfold PulseSequence.insert_ensemble
  split
  · exact h
  · unfold seqFiniteOK at h ⊢
    dsimp only
    by_cases hr : p.repetitions < 0
    · rw [if_pos hr]
      constructor
      · intro hf; cases hf
      · intro hall
        exact absurd (hall (n, p) ((mem_insertAt _ _ _ _).mpr (Or.inl rfl)))
          (not_le.mpr hr)
    · rw [if_neg hr]
      constructor
      · intro hf q hq
        rcases (mem_insertAt _ _ _ _).mp hq with h1 | h1
        · rw [h1]; exact not_lt.mp hr
        · exact h.mp hf q h1
      · intro hall
        exact h.mpr (fun q hq => hall q ((mem_insertAt _ _ _ _).mpr (Or.inr hq)))

theorem delete_ensemble_finiteOK (s : PulseSequence) (pos : Int)
    (h : seqFiniteOK s) : seqFiniteOK (s.delete_ensemble pos).2 := by
  unfold PulseSequence.delete_ensemble
  split
  · exact h
  · split
    · exact h
    · rename_i idx hidx
      split
      · exact h
      · rename_i step hstep
        split
        · exact refresh_finiteOK _
        · rename_i hr
          unfold seqFiniteOK at h ⊢
          dsimp only
          constructor
          · intro hf q hq
            exact h.mp hf q (mem_removeAt hq)
          · intro hall
            apply h.mpr
            intro q hq
            by_contra hneg
            rcases removeAt_exists (fun r => r.2.repetitions < 0) hstep hr
              ⟨q, hq, not_le.mp hneg⟩ with ⟨b, hb, hPb⟩
            exact absurd (hall b hb) (not_le.mpr hPb)

theorem replace_ensemble_finiteOK (s : PulseSequence) (pos : Int) (n : String)
    (q : Option SeqParam) (h : seqFiniteOK s) :
    seqFiniteOK (s.replace_ensemble pos n q).2 := by
  cases q with
  | none =>
    unfold PulseSequence.replace_ensemble
    dsimp only
    split
    · exact h
    · split
      · exact h
      · exact h
  | some p =>
    unfold PulseSequence.replace_ensemble
    dsimp only
    split
    · exact h
    · split
      · exact h
      · rename_i idx hidx
        have hlen : idx < s.ensemble_list.length := pyIndex_lt hidx
        by_cases h1 : p.repetitions < 0 ∧ s.is_finite = true
        · rw [if_pos h1]
          unfold seqFiniteOK
          dsimp only
          constructor
          · intro hf; cases hf
          · intro hall
            exact absurd (hall (n, p) (mem_setAt_self hlen _)) (not_le.mpr h1.1)
        · rw [if_neg h1]
          by_cases h2 : 0 ≤ p.repetitions ∧ s.is_finite = false
          · rw [if_pos h2]
            exact refresh_finiteOK _
          · rw [if_neg h2]
            unfold seqFiniteOK at h ⊢
            dsimp only
            rcases Bool.eq_false_or_eq_true s.is_finite with hf | hf
            · have hr : 0 ≤ p.repetitions := by
                by_contra hnr
                exact h1 ⟨not_le.mp hnr, hf⟩
              rw [hf]
              constructor
              · intro _ r hrm
                rcases mem_setAt hrm with hm | hm
                · exact h.mp hf r hm
                · rw [hm]; exact hr
              · intro _; rfl
            · have hr : p.repetitions < 0 := by
                by_contra hnr
                exact h2 ⟨not_lt.mp hnr, hf⟩
              rw [hf]
              constructor
              · intro hff; cases hff
              · intro hall
                exact absurd (hall (n, p) (mem_setAt_self hlen _)) (not_le.mpr hr)

theorem seqOp_finiteOK (s : PulseSequence) (op : SeqOp) (h : seqFiniteOK s) :
    seqFiniteOK (applySeqOp s op) := by
  cases op with
  | ins pos n p => exact insert_ensemble_finiteOK s pos n p h
  | repl pos n q => exact replace_ensemble_finiteOK s pos n q h
  | del pos => exact delete_ensemble_finiteOK s pos h
  | app n p ab => exact insert_ensemble_finiteOK s _ n p h

theorem seqOps_finiteOK (s : PulseSequence) (ops : List SeqOp) (h : seqFiniteOK s) :
    seqFiniteOK (applySeqOps s ops) := by
  induction ops generalizing s with
  | nil => exact h
  | cons op rest ih => exact ih _ (seqOp_finiteOK s op h)

theorem insert_element_totalsOK (b : PulseBlock) (pos : Int) (e : PulseBlockElement)
    (h : blockTotalsOK b) : blockTotalsOK (b.insert_element pos e).2 := by
  unfold PulseBlock.insert_element
  split
  · exact h
  · unfold blockTotalsOK at h ⊢
    split
    · exact ⟨by rw [sum_insertAt, h.1], by rw [sum_insertAt, h.2]⟩
    · split
      · exact h
      · exact ⟨by rw [sum_insertAt, h.1], by rw [sum_insertAt, h.2]⟩

theorem replace_element_totalsOK (b : PulseBlock) (pos : Int) (e : PulseBlockElement)
    (h : blockTotalsOK b) : blockTotalsOK (b.replace_element pos e).2 := by
  unfold PulseBlock.replace_element
  split
  · exact h
  · split
    · exact h
    · split
      · exact h
      · split
        · exact h
        · rename_i old hold
          unfold blockTotalsOK at h ⊢
          constructor
          · rw [sum_setAt _ hold, h.1]
          · rw [sum_setAt _ hold, h.2]

theorem delete_element_totalsOK (b : PulseBlock) (pos : Int)
    (h : blockTotalsOK b) : blockTotalsOK (b.delete_element pos).2 := by
  unfold PulseBlock.delete_element
  split
  · exact h
  · split
    · exact h
    · split
      · exact h
      · rename_i old hold
        split
        · rename_i hrest
          unfold blockTotalsOK
          rw [hrest]
          exact ⟨rfl, rfl⟩
        · unfold blockTotalsOK at h ⊢
          constructor
          · rw [sum_removeAt _ hold, h.1]
          · rw [sum_removeAt _ hold, h.2]

theorem blockOp_totalsOK (b : PulseBlock) (op : BlockOp) (h : blockTotalsOK b) :
    blockTotalsOK (applyBlockOp b op) := by
  cases op with
  | ins pos e => exact insert_element_totalsOK b pos e h
  | repl pos e => exact replace_element_totalsOK b pos e h
  | del pos => exact delete_element_totalsOK b pos h
  | app e ab => exact insert_element_totalsOK b _ e h

theorem blockOps_totalsOK (b : PulseBlock) (ops : List BlockOp) (h : blockTotalsOK b) :
    blockTotalsOK (applyBlockOps b ops) := by
  induction ops generalizing b with
  | nil => exact h
  | cons op rest ih => exact ih _ (blockOp_totalsOK b op h)

theorem convertPF_roundtrip (catalog : Catalog) (l : List (String × SamplingFunction))
    (hc : ∀ p ∈ l, catalog p.2.name p.2.params = .ok p.2) :
    (convertPF catalog
      (l.map (fun p => (p.1, PFEntry.raw p.2.get_dict_representation)))).2 = .ok l := by
  induction l with
  | nil => rfl
  | cons p t ih =>
    have h1 : catalog p.2.name p.2.params = .ok p.2 := hc p (by simp)
    have h2 := ih (fun q hq => hc q (List.mem_cons_of_mem p hq))
    simp only [SamplingFunction.get_dict_representation] at h2
    simp [convertPF, SamplingFunction.get_dict_representation, h1, h2, pvCons]

theorem element_from_dict_roundtrip (catalog : Catalog) (e : PulseBlockElement)
    (he : wfElement e) (hc : catalogInverts catalog e) :
    (PulseBlockElement.element_from_dict catalog e.get_dict_representation).2 = .ok e := by
  simp only [PulseBlockElement.element_from_dict, PulseBlockElement.get_dict_representation,
    convertPF_roundtrip catalog e.pulse_function hc]
  rw [he]

theorem convertElems_roundtrip (catalog : Catalog) (l : List PulseBlockElement)
    (hl : ∀ e ∈ l, wfElement e ∧ catalogInverts catalog e) :
    (convertElems catalog
      (l.map (fun e => ElemEntry.rawE e.get_dict_representation))).2 = .ok l := by
  induction l with
  | nil => rfl
  | cons e t ih =>
    have h1 := element_from_dict_roundtrip catalog e (hl e (by simp)).1 (hl e (by simp)).2
    have h2 := ih (fun x hx => hl x (List.mem_cons_of_mem e hx))
    simp [convertElems, h1, h2, pvCons]

theorem block_from_dict_roundtrip (catalog : Catalog) (b : PulseBlock)
    (hb : wfBlock b) (hl : ∀ e ∈ b.element_list, wfElement e ∧ catalogInverts catalog e) :
    (PulseBlock.block_from_dict catalog b.get_dict_representation).2 = .ok b := by
  simp only [PulseBlock.block_from_dict, PulseBlock.get_dict_representation,
    convertElems_roundtrip catalog b.element_list hl]
  exact hb

/-- The per-step contribution to the playback duration, as the claim states
it: the referenced block's total duration times (reps+1) plus its total
increment times (reps^2+reps)/2. -/
def stepCost (lookup : String → Option PulseBlock) (p : String × Int) : ℚ :=
  match lookup p.1 with
  | some blk => blk.init_length_s * ((p.2 : ℚ) + 1)
      + blk.increment_s * (((p.2 : ℚ) ^ 2 + (p.2 : ℚ)) / 2)
  | none => 0

theorem countLoop_ok (lookup : String → Option PulseBlock) (l : List (String × Int))
    (hall : ∀ p ∈ l, (lookup p.1).isSome = true) :
    ∀ acc : ℚ, countLoop lookup l acc = .ok (acc + (l.map (stepCost lookup)).sum) := by
  induction l with
  | nil => intro acc; simp [countLoop]
  | cons p t ih =>
    obtain ⟨bn, reps⟩ := p
    intro acc
    obtain ⟨blk, hblk⟩ := Option.isSome_iff_exists.mp (hall (bn, reps) (by simp))
    have h2 := ih (fun q hq => hall q (List.mem_cons_of_mem _ hq))
      (acc + blk.init_length_s * ((reps : ℚ) + 1)
           + blk.increment_s * (((reps : ℚ) ^ 2 + (reps : ℚ)) / 2))
    simp only [countLoop, hblk]
    rw [h2]
    simp only [List.map_cons, List.sum_cons, stepCost, hblk]
    congr 1
    ring

theorem registry_fold_lookup (s : String) (l : List (String × Nat)) :
    ∀ d : String → Option Nat,
      (l.foldl registryStep d) s =
        match lastMatch s l with
        | some v => some v
        | none => d s := by
  induction l with
  | nil => intro d; rfl
  | cons p t ih =>
    intro d
    rw [List.foldl_cons, ih (registryStep d p)]
    by_cases h1 : strHasPfx generateMarker p.1 = true
    · by_cases h2 : strDrop p.1 9 = s
      · cases h : lastMatch s t with
        | some v => simp [lastMatch, h]
        | none => simp [lastMatch, h, registryStep, h1, h2]
      · have h2s : ¬(s = strDrop p.1 9) := fun hh => h2 hh.symm
        cases h : lastMatch s t with
        | some v => simp [lastMatch, h]
        | none => simp [lastMatch, h, registryStep, h1, h2, h2s]
    · cases h : lastMatch s t with
      | some v => simp [lastMatch, h]
      | none => simp [lastMatch, h, registryStep, h1]

theorem element_from_dict_mutates (catalog : Catalog) (d : ElementDict)
    (e : PulseBlockElement) (hne : d.pulse_function ≠ [])
    (hok : (PulseBlockElement.element_from_dict catalog d).2 = .ok e) :
    (PulseBlockElement.element_from_dict catalog d).1 ≠ d ∧
    (PulseBlockElement.element_from_dict catalog
        (PulseBlockElement.element_from_dict catalog d).1).2 = .raised .typeError := by
  obtain ⟨dinit, dinc, ddig, dpf⟩ := d
  cases dpf with
  | nil => exact absurd rfl hne
  | cons q rest =>
    obtain ⟨c, entry⟩ := q
    cases entry with
    | obj f =>
      exfalso
      simp [PulseBlockElement.element_from_dict, convertPF] at hok
    | raw sd =>
      cases hcat : catalog sd.name sd.params with
      | raised err =>
        exfalso
        simp [PulseBlockElement.element_from_dict, convertPF, hcat] at hok
      | ok f =>
        constructor
        · intro heq
          have hpf := congrArg ElementDict.pulse_function heq
          simp [PulseBlockElement.element_from_dict, convertPF, hcat] at hpf
        · simp [PulseBlockElement.element_from_dict, convertPF, hcat]

theorem block_from_dict_mutates (catalog : Catalog) (d : BlockDict) (b : PulseBlock)
    (hne : d.element_list ≠ [])
    (hok : (PulseBlock.block_from_dict catalog d).2 = .ok b) :
    (PulseBlock.block_from_dict catalog d).1 ≠ d ∧
    (PulseBlock.block_from_dict catalog (PulseBlock.block_from_dict catalog d).1).2
      = .raised .typeError := by
  obtain ⟨dn, del⟩ := d
  cases del with
  | nil => exact absurd rfl hne
  | cons q rest =>
    cases q with
    | objE e0 =>
      exfalso
      simp [PulseBlock.block_from_dict, convertElems] at hok
    | rawE ed =>
      cases hfd : (PulseBlockElement.element_from_dict catalog ed).2 with
      | raised err =>
        exfalso
        simp [PulseBlock.block_from_dict, convertElems, hfd] at hok
      | ok e0 =>
        constructor
        · intro heq
          have hel := congrArg BlockDict.element_list heq
          simp [PulseBlock.block_from_dict, convertElems, hfd] at hel
        · simp [PulseBlock.block_from_dict, convertElems, hfd]

/-- An element using a single digital channel. -/
def sampleDigitalElement : PulseBlockElement := mkElement 1 0 [] [("d_ch1", true)]

/-- An element using a single analog channel with one waveform-spec. -/
def sampleAnalogElement : PulseBlockElement :=
  mkElement 2 1 [("a_ch1", ⟨"Sin", [("frequency", 100)]⟩)] []

/-- An element with no outputs on any channel (an allowed degenerate value of
the constructor, whose channel set is empty). -/
def sampleBareElement : PulseBlockElement := mkElement 1 0 [] []

/-- A block built by inserting the single digital-channel element into a
freshly constructed empty block. -/
def sampleBlock : PulseBlock := ((mkBlockNone "B").insert_element 0 sampleDigitalElement).2

/-- Claim C1 (code bug): the claim states that replace at a valid position
with a new name and no new step-parameters succeeds, updates only the name
and keeps the prior repetitions (resp. step-parameter record).  Evaluating
the code on an Ensemble and on a Sequence whose step list was built by
insert shows that the call instead raises a TypeError (the step entries are
tuples, and the name-only branch assigns to a tuple item) and leaves the
entity unchanged, contradicting the replace docstring "Use present one if
None". -/
theorem C1_replace_name_only_raises :
    (((mkEnsemble "E" none true).insert_block 0 "A" 0).1 = .ret 0 ∧
      ((mkEnsemble "E" none true).insert_block 0 "A" 0).2.replace_block 0 "B" none
        = (.raised .typeError, ((mkEnsemble "E" none true).insert_block 0 "A" 0).2)) ∧
    (((mkSequence "S" [] false).insert_ensemble 0 "A" ⟨0, -1, -1⟩).1 = .ret 0 ∧
      ((mkSequence "S" [] false).insert_ensemble 0 "A" ⟨0, -1, -1⟩).2.replace_ensemble
          0 "B" none
        = (.raised .typeError,
            ((mkSequence "S" [] false).insert_ensemble 0 "A" ⟨0, -1, -1⟩).2)) := by
  decide

/-- Claim C2 (counterexample): the claim also requires every negative
position to fail with -1 and leave the entity unchanged, but delete at
position -1 on a one-element Block succeeds (Python negative indexing) and
empties the element list. -/
theorem C2_counterexample :
    sampleBlock.element_list = [sampleDigitalElement] ∧
    (sampleBlock.delete_element (-1)).1 = .ret 0 ∧
    (sampleBlock.delete_element (-1)).2.element_list = [] := by
  decide

/-- Claim C2 (amended): for every Block, Ensemble and Sequence, every
position-addressed replace or delete called with a position greater than or
equal to the current list length returns the failure signal -1, does not
raise, and leaves the entity completely unchanged.  (Negative positions are
not range-checked by the code: they follow Python indexing from the end of
the list, as the counterexample shows.) -/
theorem C2_out_of_range_thm (b : PulseBlock) (en : PulseBlockEnsemble)
    (s : PulseSequence) (pb pe ps : Int) (el : PulseBlockElement)
    (nb ne : String) (r : Option Int) (sp : Option SeqParam)
    (hb : (b.element_list.length : Int) ≤ pb)
    (he : (en.block_list.length : Int) ≤ pe)
    (hs : (s.ensemble_list.length : Int) ≤ ps) :
    b.replace_element pb el = (.ret (-1), b) ∧
    b.delete_element pb = (.ret (-1), b) ∧
    en.replace_block pe nb r = (.ret (-1), en) ∧
    en.delete_block pe = (.ret (-1), en) ∧
    s.replace_ensemble ps ne sp = (.ret (-1), s) ∧
    s.delete_ensemble ps = (.ret (-1), s) := by
  refine ⟨?_, ?_, ?_, ?_, ?_, ?_⟩
  · unfold PulseBlock.replace_element
    rw [if_pos hb]
  · unfold PulseBlock.delete_element
    rw [if_pos hb]
  · unfold PulseBlockEnsemble.replace_block
    rw [if_pos he]
  · unfold PulseBlockEnsemble.delete_block
    rw [if_pos he]
  · unfold PulseSequence.replace_ensemble
    rw [if_pos hs]
  · unfold PulseSequence.delete_ensemble
    rw [if_pos hs]

/-- Witness for claim C2: the amended theorem applied to a concrete Block,
Ensemble and Sequence at out-of-range positions. -/
theorem C2_out_of_range_witness :
    sampleBlock.replace_element 1 sampleBareElement = (.ret (-1), sampleBlock) ∧
    sampleBlock.delete_element 1 = (.ret (-1), sampleBlock) ∧
    (mkEnsemble "E" none true).replace_block 0 "A" none
      = (.ret (-1), mkEnsemble "E" none true) ∧
    (mkEnsemble "E" none true).delete_block 0 = (.ret (-1), mkEnsemble "E" none true) ∧
    (mkSequence "S" [] false).replace_ensemble 0 "A" none
      = (.ret (-1), mkSequence "S" [] false) ∧
    (mkSequence "S" [] false).delete_ensemble 0 = (.ret (-1), mkSequence "S" [] false) := by
  exact C2_out_of_range_thm sampleBlock (mkEnsemble "E" none true)
    (mkSequence "S" [] false) 1 0 0 sampleBareElement "A" "A" none none
    (by decide) (by decide) (by decide)

/-- Claim C3 (counterexample): the claim states is_finite is false iff some
step has repetitions == -1.  Inserting a step with repetitions -2 (accepted:
insert_ensemble does not validate repetitions) makes is_finite false although
no step has repetitions equal to -1. -/
theorem C3_counterexample :
    (((mkSequence "S" [] false).insert_ensemble 0 "E" ⟨-2, -1, -1⟩).1 = .ret 0) ∧
    (((mkSequence "S" [] false).insert_ensemble 0 "E" ⟨-2, -1, -1⟩).2.is_finite = false) ∧
    (∀ p ∈ ((mkSequence "S" [] false).insert_ensemble 0 "E" ⟨-2, -1, -1⟩).2.ensemble_list,
      p.2.repetitions ≠ -1) := by
  decide

/-- Claim C3 (amended): for every Sequence reachable from construction by any
list of insert/replace/delete/append step operations, is_finite is false if
and only if some step in the current step list has negative repetitions (any
negative value, not only -1); in particular, for the spec example, after
deleting the only step with negative repetitions is_finite recomputes to
true. -/
theorem C3_finite_invariant_thm :
    (∀ (name : String) (l : List (String × SeqParam)) (rf : Bool) (ops : List SeqOp),
      seqFiniteOK (applySeqOps (mkSequence name l rf) ops)) ∧
    ((mkSequence "S" [("E1", ⟨3, -1, -1⟩), ("E2", ⟨-1, -1, -1⟩)] false).is_finite
        = false ∧
      ((mkSequence "S" [("E1", ⟨3, -1, -1⟩), ("E2", ⟨-1, -1, -1⟩)]
          false).delete_ensemble 1).2.is_finite = true) := by
  constructor
  · intro name l rf ops
    exact seqOps_finiteOK _ ops (refresh_finiteOK _)
  · exact ⟨by decide, by decide⟩

/-- Claim C4: for every Block reachable from an empty Block by any list of
insert/replace/delete/append operations (failed and raising calls leave the
state unchanged, so restricting to the successful ones is immaterial), the
stored total duration equals the sum of the element durations and the stored
total increment equals the sum of the element increments; an empty Block has
both totals equal to 0. -/
theorem C4_totals_invariant_thm :
    (∀ (name : String) (ops : List BlockOp),
      blockTotalsOK (applyBlockOps (mkBlockNone name) ops)) ∧
    (∀ name : String,
      (mkBlockNone name).init_length_s = 0 ∧ (mkBlockNone name).increment_s = 0) := by
  constructor
  · intro name ops
    exact blockOps_totalsOK _ ops ⟨rfl, rfl⟩
  · intro name
    exact ⟨rfl, rfl⟩

/-- Claim C5 (counterexample): the claim quantifies over every non-empty
Block and every Element with a differing channel set, but a Block whose only
element uses no channels has an empty channel set, and insert then adopts the
differing element's channel set instead of raising: the second insert
succeeds and the Block ends up containing both elements. -/
theorem C5_counterexample :
    (((mkBlockNone "B").insert_element 0 sampleBareElement).2.element_list
        = [sampleBareElement]) ∧
    sampleBareElement.channel_set ≠ sampleDigitalElement.channel_set ∧
    ((((mkBlockNone "B").insert_element 0 sampleBareElement).2.insert_element
        1 sampleDigitalElement).1 = .ret 0) ∧
    ((((mkBlockNone "B").insert_element 0 sampleBareElement).2.insert_element
        1 sampleDigitalElement).2.element_list
      = [sampleBareElement, sampleDigitalElement]) := by
  decide

/-- Claim C5 (amended): for every Block whose channel set is nonempty and
every Element whose channel set differs from the Block's, insert (at any
position not beyond the length) and replace (at any position below the
length) raise ValueError and leave the Block's element list, totals and
channel set exactly as before the call; in particular, inserting an e1 whose
channel set is nonempty into an empty Block and then inserting an e2 with a
different channel set leaves the Block containing only e1. -/
theorem C5_channel_mismatch_thm (b : PulseBlock) (e : PulseBlockElement)
    (pi pr : Int) (hcs : b.channel_set ≠ ∅)
    (hne : e.channel_set ≠ b.channel_set)
    (hpi : pi ≤ (b.element_list.length : Int))
    (hpr : pr < (b.element_list.length : Int)) :
    b.insert_element pi e = (.raised .valueError, b) ∧
    b.replace_element pr e = (.raised .valueError, b) ∧
    (∀ (nm : String) (e1 e2 : PulseBlockElement), e1.channel_set ≠ ∅ →
      e2.channel_set ≠ e1.channel_set →
      ((mkBlockNone nm).insert_element 0 e1).1 = .ret 0 ∧
      ((mkBlockNone nm).insert_element 0 e1).2.element_list = [e1] ∧
      ((mkBlockNone nm).insert_element 0 e1).2.insert_element 1 e2
        = (.raised .valueError, ((mkBlockNone nm).insert_element 0 e1).2)) := by
  refine ⟨?_, ?_, ?_⟩
  · unfold PulseBlock.insert_element
    rw [if_neg (not_lt.mpr hpi), if_neg hcs, if_pos hne]
  · unfold PulseBlock.replace_element
    rw [if_neg (not_le.mpr hpr), if_pos hne]
  · intro nm e1 e2 h1 h2
    have hfirst : (mkBlockNone nm).insert_element 0 e1
        = (.ret 0, ⟨nm, [e1], e1.init_length_s, e1.increment_s,
            analogFilter e1.channel_set, digitalFilter e1.channel_set,
            e1.channel_set⟩) := by
      unfold PulseBlock.insert_element mkBlockNone
      norm_num [pyInsertPos, insertAt]
    refine ⟨by rw [hfirst], by rw [hfirst], ?_⟩
    rw [hfirst]
    unfold PulseBlock.insert_element
    norm_num
    rw [if_neg h1, if_neg h2]

/-- Witness for claim C5: the amended theorem applied to the concrete
one-digital-channel Block and the channel-less element, and to the claim's
two-element scenario with concrete elements. -/
theorem C5_channel_mismatch_witness :
    sampleBlock.insert_element 1 sampleBareElement
      = (.raised .valueError, sampleBlock) ∧
    sampleBlock.replace_element 0 sampleBareElement
      = (.raised .valueError, sampleBlock) ∧
    ((mkBlockNone "W").insert_element 0 sampleDigitalElement).1 = .ret 0 ∧
    ((mkBlockNone "W").insert_element 0 sampleDigitalElement).2.element_list
      = [sampleDigitalElement] ∧
    ((mkBlockNone "W").insert_element 0 sampleDigitalElement).2.insert_element
        1 sampleAnalogElement
      = (.raised .valueError,
          ((mkBlockNone "W").insert_element 0 sampleDigitalElement).2) := by
  have h := C5_channel_mismatch_thm sampleBlock sampleBareElement 1 0
    (by decide) (by decide) (by decide) (by decide)
  have h2 := h.2.2 "W" sampleDigitalElement sampleAnalogElement (by decide) (by decide)
  exact ⟨h.1, h.2.1, h2.1, h2.2.1, h2.2.2⟩

/-- The catalog that rebuilds each waveform-spec value from its own record
(the concrete instance of the claim C6 hypothesis). -/
def idCatalog : Catalog := fun n p => .ok ⟨n, p⟩

/-- A concrete Ensemble with a step list, sampling metadata and measurement
metadata. -/
def c6Ensemble : PulseBlockEnsemble := ⟨"CE", true, [("B", 2)], [("k", 1)], []⟩

/-- A concrete Sequence built through the constructor. -/
def c6Sequence : PulseSequence := mkSequence "CS" [("CE", ⟨3, -1, -1⟩)] false

/-- Claim C6 (counterexample): the round trip is not the identity on every
reachable Block.  Deleting the only element of a Block resets the totals but
keeps the last known channel set (the spec section 9 edge case), while the
Block's serialized record stores only the name and the element list; the
reconstruction therefore recomputes an empty channel set, and the
round-tripped value differs from the original on channel_set. -/
theorem C6_roundtrip_counterexample :
    (sampleBlock.delete_element 0).1 = .ret 0 ∧
    (PulseBlock.block_from_dict idCatalog
        (sampleBlock.delete_element 0).2.get_dict_representation).2
      ≠ .ok (sampleBlock.delete_element 0).2 ∧
    (PulseBlock.block_from_dict idCatalog
        (sampleBlock.delete_element 0).2.get_dict_representation).2
      = .ok (mkBlockNone "B") ∧
    (mkBlockNone "B").channel_set = ∅ ∧
    (sampleBlock.delete_element 0).2.channel_set ≠ ∅ := by
  decide

/-- Claim C6 (amended): reconstructing from the serialized declarative record
yields a value equal to the original on all fields for every Element whose
cached channel sets agree with its constructor (as construction guarantees),
for every Ensemble, for every Sequence whose stored is_finite flag agrees
with a rescan (which every operation maintains; the flag is recomputed to its
original value), and for every Block whose stored derived fields equal what
its constructor recomputes from its element list — all under the claim's
hypothesis that the external catalog maps each serialized record back to an
equal waveform-spec.  A Block emptied by delete keeps its last channel set
and falls outside this condition: its round trip differs on channel_set, as
the counterexample shows. -/
theorem C6_roundtrip_thm (catalog : Catalog) (e : PulseBlockElement) (b : PulseBlock)
    (en : PulseBlockEnsemble) (s : PulseSequence)
    (he : wfElement e) (hce : catalogInverts catalog e)
    (hb : wfBlock b) (hbe : ∀ x ∈ b.element_list, wfElement x ∧ catalogInverts catalog x)
    (hs : wfSequence s) :
    (PulseBlockElement.element_from_dict catalog e.get_dict_representation).2 = .ok e ∧
    (PulseBlock.block_from_dict catalog b.get_dict_representation).2 = .ok b ∧
    PulseBlockEnsemble.ensemble_from_dict en.get_dict_representation = en ∧
    PulseSequence.sequence_from_dict s.get_dict_representation = s := by
  exact ⟨element_from_dict_roundtrip catalog e he hce,
    block_from_dict_roundtrip catalog b hb hbe, rfl, hs⟩

/-- Witness for claim C6: the round-trip theorem applied to a concrete
Element, Block, Ensemble and Sequence with the identity-style catalog. -/
theorem C6_roundtrip_witness :
    (PulseBlockElement.element_from_dict idCatalog
        sampleAnalogElement.get_dict_representation).2 = .ok sampleAnalogElement ∧
    (PulseBlock.block_from_dict idCatalog sampleBlock.get_dict_representation).2
      = .ok sampleBlock ∧
    PulseBlockEnsemble.ensemble_from_dict c6Ensemble.get_dict_representation
      = c6Ensemble ∧
    PulseSequence.sequence_from_dict c6Sequence.get_dict_representation = c6Sequence := by
  exact C6_roundtrip_thm idCatalog sampleAnalogElement sampleBlock c6Ensemble c6Sequence
    (by rfl) (by decide) (by rfl) (by decide) (by rfl)

/-- Claim C7: with a gate channel configured, the playback duration is
laser_length + laser_delay regardless of the Ensemble's steps; without one,
provided every referenced block name occurs in the supplied block collection,
it is the sum over all steps of total_duration*(reps+1) +
total_increment*(reps^2+reps)/2 of the referenced block. -/
theorem C7_count_length_thm (gp : GenerationParameters) (en : PulseBlockEnsemble)
    (created_blocks : List PulseBlock) :
    ((PredefinedGeneratorBase.gate_channel gp).isSome = true →
      PredefinedGeneratorBase.get_ensemble_count_length gp en created_blocks
        = .ok (gp.laser_length + gp.laser_delay)) ∧
    (PredefinedGeneratorBase.gate_channel gp = none →
      (∀ p ∈ en.block_list, (blockLookup created_blocks p.1).isSome = true) →
      PredefinedGeneratorBase.get_ensemble_count_length gp en created_blocks
        = .ok ((en.block_list.map (stepCost (blockLookup created_blocks))).sum)) := by
  constructor
  · intro hg
    obtain ⟨c, hc⟩ := Option.isSome_iff_exists.mp hg
    unfold PredefinedGeneratorBase.get_ensemble_count_length
    rw [hc]
  · intro hg hall
    unfold PredefinedGeneratorBase.get_ensemble_count_length
    rw [hg, countLoop_ok _ _ hall 0, zero_add]

/-- A block value whose stored totals are 10 and 2, holding the one element
they derive from. -/
def c7Block : PulseBlock :=
  ⟨"B", [mkElement 10 2 [] [("d_ch1", true)]], 10, 2, ∅, {"d_ch1"}, {"d_ch1"}⟩

/-- Witness for claim C7: with a gate channel, a concrete call returns
laser_length + laser_delay = 4; without one, the spec's example (one step
with reps=2 over a block with duration 10 and increment 2) returns 36. -/
theorem C7_count_length_witness :
    PredefinedGeneratorBase.get_ensemble_count_length ⟨some "d_ch2", 3, 1⟩
      c6Ensemble [] = .ok 4 ∧
    PredefinedGeneratorBase.get_ensemble_count_length ⟨none, 3, 1⟩
      (mkEnsemble "E" (some [("B", 2)]) true) [c7Block] = .ok 36 := by
  constructor
  · have h := (C7_count_length_thm ⟨some "d_ch2", 3, 1⟩ c6Ensemble []).1 (by decide)
    rw [h]
    norm_num
  · have hl : blockLookup [c7Block] "B" = some c7Block := rfl
    have h := (C7_count_length_thm ⟨none, 3, 1⟩
      (mkEnsemble "E" (some [("B", 2)]) true) [c7Block]).2 rfl (by decide)
    rw [h]
    have hbl : (mkEnsemble "E" (some [("B", 2)]) true).block_list = [("B", 2)] := rfl
    rw [hbl]
    simp only [List.map_cons, List.map_nil, List.sum_cons, List.sum_nil, stepCost, hl]
    norm_num [c7Block]

/-- Claim C8: for every ordered list of generator instances processed by the
harvesting pass, the operation mapping at any suffix equals the method of the
latest discovery-order member whose name is the generate_ marker followed by
that suffix (so prefixed callables are registered under their suffix, and on
a collision the later-discovered operation wins); in particular two instances
both defining generate_foo leave the later one's operation registered. -/
theorem C8_registry_thm :
    (∀ (instance_list : List (List (String × Nat))) (s : String),
      populate_method_dict instance_list s = lastMatch s instance_list.flatten) ∧
    populate_method_dict [[("generate_foo", 1)], [("generate_foo", 2)]] "foo"
      = some 2 := by
  constructor
  · intro il s
    unfold populate_method_dict
    rw [registry_fold_lookup s il.flatten (fun _ => none)]
    cases h : lastMatch s il.flatten with
    | some v => rfl
    | none => rfl
  · decide

/-- Claim C9: the generator-class predicate accepts an object exactly when it
is a class whose direct base list is exactly the one-element list holding the
Generation-Context-consuming base class; consequently the member filter of
the discovery pass keeps exactly such classes, so a class with extra bases or
only transitive inheritance contributes no operations. -/
theorem C9_generator_class_thm :
    (∀ obj : PyObject, PulseObjectGenerator.is_generator_class obj = true ↔
      obj = PyObject.pyClass [predefinedGeneratorBaseName]) ∧
    (∀ (members : List PyObject) (obj : PyObject),
      obj ∈ members.filter PulseObjectGenerator.is_generator_class ↔
        obj ∈ members ∧ obj = PyObject.pyClass [predefinedGeneratorBaseName]) := by
  have h1 : ∀ obj : PyObject, PulseObjectGenerator.is_generator_class obj = true ↔
      obj = PyObject.pyClass [predefinedGeneratorBaseName] := by
    intro obj
    cases obj with
    | nonClass => simp [PulseObjectGenerator.is_generator_class]
    | pyClass bases =>
      simp only [PulseObjectGenerator.is_generator_class, Bool.and_eq_true,
        decide_eq_true_eq, beq_iff_eq, PyObject.pyClass.injEq]
      constructor
      · rintro ⟨hmem, hlen⟩
        obtain ⟨a, ha⟩ := List.length_eq_one.mp hlen
        subst ha
        simp only [List.mem_singleton] at hmem
        rw [hmem]
      · rintro rfl
        simp
  exact ⟨h1, fun members obj => by rw [List.mem_filter, h1 obj]⟩

/-- Claim C10 (counterexample): an Element record with no waveform entries is
returned unchanged by element_from_dict, still equals its original value, and
can be reused for a second reconstruction with the same successful result,
contradicting the claim's universal quantification over records. -/
theorem C10_counterexample :
    (PulseBlockElement.element_from_dict idCatalog ⟨1, 0, [("d_ch1", true)], []⟩).1
      = ⟨1, 0, [("d_ch1", true)], []⟩ ∧
    (PulseBlockElement.element_from_dict idCatalog
        (PulseBlockElement.element_from_dict idCatalog
          ⟨1, 0, [("d_ch1", true)], []⟩).1).2
      = (PulseBlockElement.element_from_dict idCatalog ⟨1, 0, [("d_ch1", true)], []⟩).2 ∧
    (PulseBlockElement.element_from_dict idCatalog ⟨1, 0, [("d_ch1", true)], []⟩).2
      = .ok (mkElement 1 0 [] [("d_ch1", true)]) := by
  decide

/-- Claim C10 (amended): deserialization mutates the record in place,
overwriting each per-channel waveform entry (and each nested Element record
of a Block record); for every Element record with at least one waveform entry
and every Block record with at least one element record, whenever the first
reconstruction succeeds the caller's record is no longer equal to its
original value and a second reconstruction from it raises a TypeError. -/
theorem C10_mutation_thm (catalog : Catalog) (d : ElementDict) (bd : BlockDict)
    (e : PulseBlockElement) (b : PulseBlock)
    (hd : d.pulse_function ≠ [])
    (hde : (PulseBlockElement.element_from_dict catalog d).2 = .ok e)
    (hbd : bd.element_list ≠ [])
    (hbe : (PulseBlock.block_from_dict catalog bd).2 = .ok b) :
    (PulseBlockElement.element_from_dict catalog d).1 ≠ d ∧
    (PulseBlockElement.element_from_dict catalog
        (PulseBlockElement.element_from_dict catalog d).1).2 = .raised .typeError ∧
    (PulseBlock.block_from_dict catalog bd).1 ≠ bd ∧
    (PulseBlock.block_from_dict catalog (PulseBlock.block_from_dict catalog bd).1).2
      = .raised .typeError := by
  obtain ⟨h1, h2⟩ := element_from_dict_mutates catalog d e hd hde
  obtain ⟨h3, h4⟩ := block_from_dict_mutates catalog bd b hbd hbe
  exact ⟨h1, h2, h3, h4⟩

/-- An Element record with one serialized waveform entry. -/
def c10ElemDict : ElementDict :=
  ⟨2, 1, [], [("a_ch1", PFEntry.raw ⟨"Sin", [("frequency", 100)]⟩)]⟩

/-- A Block record holding one serialized Element record. -/
def c10BlockDict : BlockDict := ⟨"B", [ElemEntry.rawE c10ElemDict]⟩

/-- The Block that reconstructing c10BlockDict produces. -/
def c10Block : PulseBlock :=
  ((mkBlockNone "B").insert_element 0
    (mkElement 2 1 [("a_ch1", ⟨"Sin", [("frequency", 100)]⟩)] [])).2

/-- Witness for claim C10: the amended theorem applied to concrete Element
and Block records with one entry each. -/
theorem C10_mutation_witness :
    (PulseBlockElement.element_from_dict idCatalog c10ElemDict).1 ≠ c10ElemDict ∧
    (PulseBlockElement.element_from_dict idCatalog
        (PulseBlockElement.element_from_dict idCatalog c10ElemDict).1).2
      = .raised .typeError ∧
    (PulseBlock.block_from_dict idCatalog c10BlockDict).1 ≠ c10BlockDict ∧
    (PulseBlock.block_from_dict idCatalog
        (PulseBlock.block_from_dict idCatalog c10BlockDict).1).2
      = .raised .typeError := by
  exact C10_mutation_thm idCatalog c10ElemDict c10BlockDict
    (mkElement 2 1 [("a_ch1", ⟨"Sin", [("frequency", 100)]⟩)] []) c10Block
    (by decide) (by rfl) (by decide) (by rfl)
